import Mathlib

/-!
Verification of the `omni` marketing-copy pipeline (Python/Streamlit).

This file shallowly embeds the pure fragments of the repository that the
claims concern and proves the claims about them:

* `engines/llm.py` — `sanitize_json_text`, `extract_json_object`,
  `parse_json_object` (the JSON extractor);
* `engines/briefs.py` — `BRIEF_KEYS`, `_ensure_str`, `coerce_brief`,
  `brief_builder_turn`;
* `engines/creative.py` — `LENGTH_RULES`, `DISCLAIMER_LINE`, `trait_rules`,
  `qa_and_patch_copy`;
* `engines/audience.py` — the empty-creative guard of `focus_group_debate`;
* `pages/04_Test_headlines.py` — the headline-score aggregation loop.

Python values (the output of `json.loads` and the dynamic values flowing
through the engines) are modelled by the mutual inductive `Py`/`PyArr`/`PyObj`.
Python strings are modelled by Lean `String`s, with the handful of `str`
methods the code uses (`strip`, `split`, `replace`, `find`, `rfind`, `in`,
`upper`) re-implemented over `List Char` so that everything is executable
and kernel-reducible.  Code that can raise is embedded in `Except Unit`
(an `Except.error` models an escaping Python exception); `try/except`
blocks become `match`es on such results.  Calls to the LLM providers are
modelled by oracle parameters (the provider's textual response), and the
embeddings additionally report which provider calls were issued.
-/

namespace Omni

/-! ### Python string primitives (over `List Char`) -/

/-- Whitespace as recognised by Python's `str.strip()` / `str.split()`
(space, tab, newline, carriage return, vertical tab, form feed). -/
def pyWS (c : Char) : Bool :=
  c = ' ' || c = '\t' || c = '\n' || c = '\r' || c = '\x0b' || c = '\x0c'

/-- Remove trailing whitespace (the right half of `str.strip()`). -/
def stripR (l : List Char) : List Char :=
  (l.reverse.dropWhile pyWS).reverse

/-- Model of `str.strip()` on a character list. -/
def pyStripL (l : List Char) : List Char :=
  stripR (l.dropWhile pyWS)

/-- Python `s.strip()`. -/
def pyStrip (s : String) : String :=
  ⟨pyStripL s.data⟩

/-- Model of `len(s.split())`: the number of maximal whitespace-separated words.
The flag records whether we are currently inside a word. -/
def wordCount : List Char → Bool → Nat
  | [], _ => 0
  | c :: cs, inW =>
    if pyWS c then wordCount cs false
    else (if inW then 0 else 1) + wordCount cs true

/-- Python `pat in s` (substring test), for non-empty `pat`. -/
def containsSub (pat : List Char) : List Char → Bool
  | [] => pat.isEmpty
  | c :: cs => pat.isPrefixOf (c :: cs) || containsSub pat cs

/-- Python `pat in s` on strings. -/
def pyIn (pat s : String) : Bool :=
  containsSub pat.data s.data

/-- Worker for `str.replace(pat, "")`: removes every non-overlapping
occurrence of `pat`, scanning left to right.  `fuel` bounds the recursion;
`fuel = l.length + 1` always suffices since each step consumes a character. -/
def removeAllF : Nat → List Char → List Char → List Char
  | 0, _, l => l
  | _ + 1, _, [] => []
  | f + 1, pat, c :: cs =>
    if pat ≠ [] ∧ pat.isPrefixOf (c :: cs) then
      removeAllF f pat (List.drop pat.length (c :: cs))
    else
      c :: removeAllF f pat cs

/-- Python `s.replace(pat, "")` on character lists. -/
def removeAll (pat l : List Char) : List Char :=
  removeAllF (l.length + 1) pat l

/-- Python `s.replace(pat, "")` on strings. -/
def pyRemove (s pat : String) : String :=
  ⟨removeAll pat.data s.data⟩

/-- Python `s.find(c)` (index of first occurrence, `none` for `-1`). -/
def findIdxCh : Char → List Char → Option Nat
  | _, [] => Option.none
  | c, x :: xs =>
    if x = c then some 0 else (findIdxCh c xs).map (· + 1)

/-- Python `s.rfind(c)` (index of last occurrence, `none` for `-1`). -/
def rfindIdxCh (c : Char) (l : List Char) : Option Nat :=
  (findIdxCh c l.reverse).map (fun i => l.length - 1 - i)

/-- Python `s.upper()` (ASCII; this suffices for the checks the code makes). -/
def pyUpper (s : String) : String :=
  ⟨s.data.map Char.toUpper⟩

/-! ### Python values -/

mutual
/-- A Python value, as produced by `json.loads` and passed around the
engines: `None`, `bool`, `int`, `float` (kept as its source lexeme; no
float arithmetic occurs in the verified code), `str`, `list`, `dict`. -/
inductive Py where
  | none
  | bool (b : Bool)
  | int (n : Int)
  | float (raw : String)
  | str (s : String)
  | list (xs : PyArr)
  | dict (xs : PyObj)
  deriving DecidableEq

/-- A Python list of `Py` values. -/
inductive PyArr where
  | nil
  | cons (hd : Py) (tl : PyArr)
  deriving DecidableEq

/-- A Python dict with string keys, in insertion order. -/
inductive PyObj where
  | nil
  | cons (k : String) (v : Py) (tl : PyObj)
  deriving DecidableEq
end

/-- Model of `d.get(k)` when the key may be absent. -/
def PyObj.get (k : String) : PyObj → Option Py
  | .nil => Option.none
  | .cons k' v tl => if k' = k then some v else PyObj.get k tl

/-- Model of `d.get(k)`: Python returns `None` when the key is absent. -/
def PyObj.getD (o : PyObj) (k : String) : Py :=
  (PyObj.get k o).getD .none

/-- Model of `d[k] = v`: replaces the value in place if `k` is present (keeping the
key's original position, as Python dicts do), otherwise appends. -/
def PyObj.set (k : String) (v : Py) : PyObj → PyObj
  | .nil => .cons k v .nil
  | .cons k' v' tl => if k' = k then .cons k' v tl else .cons k' v' (PyObj.set k v tl)

/-- Model of `PyArr` as a Lean list. -/
def PyArr.toList : PyArr → List Py
  | .nil => []
  | .cons v tl => v :: PyArr.toList tl

mutual
/-- Python `repr()`, to the extent `str()` on containers needs it.
String escaping inside `repr` is simplified to plain quoting; no claim
depends on the rendering of containers. -/
def pyRepr : Py → String
  | .none => "None"
  | .bool true => "True"
  | .bool false => "False"
  | .int n => toString n
  | .float raw => raw
  | .str s => "\x27" ++ s ++ "\x27"
  | .list xs => "[" ++ pyArrRepr xs ++ "]"
  | .dict xs => "\x7b" ++ pyObjRepr xs ++ "\x7d"

/-- Comma-separated `repr`s of list elements. -/
def pyArrRepr : PyArr → String
  | .nil => ""
  | .cons v .nil => pyRepr v
  | .cons v tl => pyRepr v ++ ", " ++ pyArrRepr tl

/-- Comma-separated `repr`s of dict items. -/
def pyObjRepr : PyObj → String
  | .nil => ""
  | .cons k v .nil => "\x27" ++ k ++ "\x27: " ++ pyRepr v
  | .cons k v tl => "\x27" ++ k ++ "\x27: " ++ pyRepr v ++ ", " ++ pyObjRepr tl
end

/-- Python `str(x)`: identity on strings, `repr`-style otherwise. -/
def pyStr : Py → String
  | .str s => s
  | x => pyRepr x

/-- Python truthiness `bool(x)`.  A float lexeme denotes zero iff its
mantissa (the part before any exponent) has no non-zero digit. -/
def pyTruthy : Py → Bool
  | .none => false
  | .bool b => b
  | .int n => n ≠ 0
  | .float raw =>
    ((raw.data.takeWhile (fun c => c ≠ 'e' && c ≠ 'E')).any
      (fun c => '1' ≤ c && c ≤ '9'))
  | .str s => s ≠ ""
  | .list xs => xs ≠ .nil
  | .dict xs => xs ≠ .nil

/-- Digits-to-`Nat` accumulator. -/
def digitsToNat (acc : Nat) : List Char → Nat
  | [] => acc
  | c :: cs => digitsToNat (acc * 10 + (c.toNat - '0'.toNat)) cs

/-- Python `int(str)`: strips whitespace, allows one sign, then requires a
non-empty run of digits (underscore separators are not modelled). -/
def pyStrToInt (s : String) : Except Unit Int :=
  let l := pyStripL s.data
  let (sgn, rest) :=
    match l with
    | '-' :: r => ((-1 : Int), r)
    | '+' :: r => ((1 : Int), r)
    | r => ((1 : Int), r)
  if rest ≠ [] ∧ rest.all (·.isDigit) then
    .ok (sgn * (digitsToNat 0 rest : Int))
  else
    .error ()

/-- Python `int(x)`: converts ints, bools, numeric strings and floats
(truncating toward zero); raises (`Except.error`) otherwise. -/
def pyToInt : Py → Except Unit Int
  | .int n => .ok n
  | .bool true => .ok 1
  | .bool false => .ok 0
  | .str s => pyStrToInt s
  | .float raw =>
    -- truncate a JSON float lexeme toward zero
    let l := raw.data
    let (sgn, rest) := match l with | '-' :: r => ((-1 : Int), r) | r => ((1 : Int), r)
    let ip := rest.takeWhile (·.isDigit)
    let rest1 := rest.drop ip.length
    let (fd, rest2) :=
      match rest1 with
      | '.' :: r => (r.takeWhile (·.isDigit), r.drop (r.takeWhile (·.isDigit)).length)
      | r => ([], r)
    let e : Int :=
      match rest2 with
      | 'e' :: '-' :: r => -(digitsToNat 0 (r.takeWhile (·.isDigit)) : Int)
      | 'E' :: '-' :: r => -(digitsToNat 0 (r.takeWhile (·.isDigit)) : Int)
      | 'e' :: '+' :: r => (digitsToNat 0 (r.takeWhile (·.isDigit)) : Int)
      | 'E' :: '+' :: r => (digitsToNat 0 (r.takeWhile (·.isDigit)) : Int)
      | 'e' :: r => (digitsToNat 0 (r.takeWhile (·.isDigit)) : Int)
      | 'E' :: r => (digitsToNat 0 (r.takeWhile (·.isDigit)) : Int)
      | _ => 0
    let digits : Nat := digitsToNat 0 (ip ++ fd)
    let shift : Int := e - (fd.length : Int)
    let mag : Nat :=
      if 0 ≤ shift then digits * 10 ^ shift.toNat
      else digits / 10 ^ ((-shift).toNat)
    .ok (sgn * (mag : Nat))
  | _ => .error ()

/-! ### `json.loads` (strict JSON parsing)

A recursive-descent parser for the JSON accepted by Python's `json.loads`:
a single value surrounded by optional whitespace; objects, arrays, strings
with escapes, numbers (no leading zeros; a fraction/exponent makes the
value a float), `true`/`false`/`null`.  A parse failure models the
`json.JSONDecodeError` the library raises.  `fuel` bounds the nesting
recursion; `length + 1` always suffices because every recursive call first
consumes at least one character. -/

/-- JSON inter-token whitespace (`json.loads` accepts exactly these). -/
def jWS (c : Char) : Bool :=
  c = ' ' || c = '\t' || c = '\n' || c = '\r'

/-- Skip JSON whitespace. -/
def skipJWs (l : List Char) : List Char :=
  l.dropWhile jWS

/-- Hexadecimal digit value. -/
def hexVal (c : Char) : Option Nat :=
  if '0' ≤ c ∧ c ≤ '9' then some (c.toNat - '0'.toNat)
  else if 'a' ≤ c ∧ c ≤ 'f' then some (c.toNat - 'a'.toNat + 10)
  else if 'A' ≤ c ∧ c ≤ 'F' then some (c.toNat - 'A'.toNat + 10)
  else Option.none

/-- Single-character JSON string escapes. -/
def escChar : Char → Option Char
  | '"' => some '"'
  | '\\' => some '\\'
  | '/' => some '/'
  | 'b' => some '\x08'
  | 'f' => some '\x0c'
  | 'n' => some '\n'
  | 'r' => some '\r'
  | 't' => some '\t'
  | _ => Option.none

/-- Parse the body of a JSON string after the opening quote, returning the
decoded characters and the input after the closing quote.  Unescaped
control characters are rejected, as in strict `json.loads`.  (`\uXXXX`
values in the surrogate range fall back to `Char.ofNat`'s default; no
claim involves surrogate pairs.) -/
def parseStringBody : List Char → Option (List Char × List Char)
  | [] => Option.none
  | '"' :: rest => some ([], rest)
  | '\\' :: rest =>
    match rest with
    | 'u' :: a :: b :: c :: d :: rest' =>
      match hexVal a, hexVal b, hexVal c, hexVal d with
      | some ha, some hb, some hc, some hd =>
        (parseStringBody rest').map
          (fun sr => (Char.ofNat (((ha * 16 + hb) * 16 + hc) * 16 + hd) :: sr.1, sr.2))
      | _, _, _, _ => Option.none
    | e :: rest' =>
      match escChar e with
      | some ch => (parseStringBody rest').map (fun sr => (ch :: sr.1, sr.2))
      | Option.none => Option.none
    | [] => Option.none
  | c :: rest =>
    if c.toNat < 0x20 then Option.none
    else (parseStringBody rest).map (fun sr => (c :: sr.1, sr.2))

/-- Parse an optional JSON fraction part, returning its characters
(including the dot) and the rest. -/
def lexFrac : List Char → Option (List Char × List Char)
  | '.' :: r =>
    let d := r.takeWhile (·.isDigit)
    if d = [] then Option.none else some ('.' :: d, r.drop d.length)
  | r => some (([], r))

/-- Parse an optional JSON exponent part. -/
def lexExp : List Char → Option (List Char × List Char)
  | [] => some (([], []))
  | c :: r =>
    if c = 'e' ∨ c = 'E' then
      let (sg, r1) : List Char × List Char :=
        match r with
        | '+' :: t => (['+'], t)
        | '-' :: t => (['-'], t)
        | t => ([], t)
      let d := r1.takeWhile (·.isDigit)
      if d = [] then Option.none else some (c :: (sg ++ d), r1.drop d.length)
    else some ([], c :: r)

/-- Lex a JSON number.  Integer syntax yields `Py.int`; a fraction or
exponent yields `Py.float` carrying the lexeme. -/
def lexNumber (l : List Char) : Option (Py × List Char) :=
  let (sgn, r1) : Bool × List Char :=
    match l with
    | '-' :: r => (true, r)
    | r => (false, r)
  let ip := r1.takeWhile (·.isDigit)
  if ip = [] then Option.none
  else if ip.length > 1 ∧ ip.head? = some '0' then Option.none
  else
    let r2 := r1.drop ip.length
    match lexFrac r2 with
    | Option.none => Option.none
    | some (fp, r3) =>
      match lexExp r3 with
      | Option.none => Option.none
      | some (ep, r4) =>
        if fp = [] ∧ ep = [] then
          let v : Int := (digitsToNat 0 ip : Int)
          some (.int (if sgn then -v else v), r4)
        else
          some (.float ⟨(if sgn then ['-'] else []) ++ ip ++ fp ++ ep⟩, r4)

/-- Append to a `PyArr`. -/
def PyArr.push : PyArr → Py → PyArr
  | .nil, v => .cons v .nil
  | .cons h tl, v => .cons h (PyArr.push tl v)

mutual
/-- Parse one JSON value at the head of the input. -/
def parseVal : Nat → List Char → Option (Py × List Char)
  | 0, _ => Option.none
  | fuel + 1, l =>
    match l with
    | '\x7b' :: rest =>
      (match skipJWs rest with
       | '\x7d' :: r' => some (.dict .nil, r')
       | r => parseObjItems fuel .nil r)
    | '[' :: rest =>
      (match skipJWs rest with
       | ']' :: r' => some (.list .nil, r')
       | r => parseArrItems fuel .nil r)
    | '"' :: rest => (parseStringBody rest).map (fun sr => (.str ⟨sr.1⟩, sr.2))
    | 't' :: 'r' :: 'u' :: 'e' :: rest => some (.bool true, rest)
    | 'f' :: 'a' :: 'l' :: 's' :: 'e' :: rest => some (.bool false, rest)
    | 'n' :: 'u' :: 'l' :: 'l' :: rest => some (.none, rest)
    | _ => lexNumber l

/-- Parse the members of a JSON object (after at least one is required),
accumulating into `acc`; duplicate keys overwrite in place, as Python
dicts do. -/
def parseObjItems : Nat → PyObj → List Char → Option (Py × List Char)
  | 0, _, _ => Option.none
  | fuel + 1, acc, l =>
    match l with
    | '"' :: rest =>
      (match parseStringBody rest with
       | Option.none => Option.none
       | some (k, r1) =>
         match skipJWs r1 with
         | ':' :: r2 =>
           (match parseVal fuel (skipJWs r2) with
            | Option.none => Option.none
            | some (v, r3) =>
              let acc' := acc.set ⟨k⟩ v
              match skipJWs r3 with
              | ',' :: r4 => parseObjItems fuel acc' (skipJWs r4)
              | '\x7d' :: r4 => some (.dict acc', r4)
              | _ => Option.none)
         | _ => Option.none)
    | _ => Option.none

/-- Parse the elements of a JSON array (after at least one is required). -/
def parseArrItems : Nat → PyArr → List Char → Option (Py × List Char)
  | 0, _, _ => Option.none
  | fuel + 1, acc, l =>
    match parseVal fuel l with
    | Option.none => Option.none
    | some (v, r1) =>
      let acc' := acc.push v
      match skipJWs r1 with
      | ',' :: r2 => parseArrItems fuel acc' (skipJWs r2)
      | ']' :: r2 => some (.list acc', r2)
      | _ => Option.none
end

/-- Model of `json.loads`: parse a complete JSON document (one value surrounded by
optional whitespace).  `Except.error` models the raised
`json.JSONDecodeError`. -/
def jsonParse (s : String) : Except Unit Py :=
  match parseVal (s.data.length + 1) (skipJWs s.data) with
  | some (v, rest) => if skipJWs rest = [] then .ok v else .error ()
  | Option.none => .error ()

/-! ### `engines/llm.py` — the JSON extractor -/

/-- Model of `isinstance(obj, dict)`. -/
def Py.isDict : Py → Bool
  | .dict _ => true
  | _ => false

/-- Model of `sanitize_json_text` (engines/llm.py): strip, remove every occurrence
of the markdown fence tokens, strip again. -/
def sanitize_json_text (text : String) : String :=
  let t := pyStrip text
  if t = "" then ""
  else pyStrip (pyRemove (pyRemove t "```json") "```")

/-- The brace-delimited substring `text[text.find("\x7b") : text.rfind("\x7d") + 1]`
used by `extract_json_object`, or `none` when the source returns early
(empty text, a brace missing, or `end <= start`). -/
def braceBlob (text : String) : Option String :=
  if text = "" then Option.none
  else
    match findIdxCh '\x7b' text.data, rfindIdxCh '\x7d' text.data with
    | some s, some e =>
      if e ≤ s then Option.none
      else some ⟨(text.data.drop s).take (e + 1 - s)⟩
    | _, _ => Option.none

/-- Model of `extract_json_object` (engines/llm.py): best-effort extraction of a
JSON object from model output.  The `match` on `jsonParse` is the source's
`try/except` around `json.loads`: a parse error is caught and becomes
`None`. -/
def extract_json_object (text : String) : Except Unit (Option Py) :=
  match braceBlob text with
  | Option.none => .ok Option.none
  | some blob =>
    match jsonParse blob with
    | .ok obj => .ok (if obj.isDict then some obj else Option.none)
    | .error _ => .ok Option.none

/-- Model of `parse_json_object` (engines/llm.py): strict parse of the sanitized
text first (accepting only a dict), falling back to
`extract_json_object` when `json.loads` raises. -/
def parse_json_object (text : String) : Except Unit (Option Py) :=
  let cleaned := sanitize_json_text text
  if cleaned = "" then .ok Option.none
  else
    match jsonParse cleaned with
    | .ok obj => .ok (if obj.isDict then some obj else Option.none)
    | .error _ => extract_json_object cleaned

/-- Model of `parse_json_object` as a plain partial function (its exception
component is provably absent; see the claim on exception safety). -/
def parse_json_object_run (text : String) : Option Py :=
  match parse_json_object text with
  | .ok o => o
  | .error _ => Option.none

instance {ε α : Type} [DecidableEq ε] [DecidableEq α] : DecidableEq (Except ε α) := fun a b =>
  match a, b with
  | .error x, .error y =>
    if h : x = y then .isTrue (h ▸ rfl) else .isFalse (fun c => h (Except.error.inj c))
  | .ok x, .ok y =>
    if h : x = y then .isTrue (h ▸ rfl) else .isFalse (fun c => h (Except.ok.inj c))
  | .error _, .ok _ => .isFalse (fun c => Except.noConfusion c)
  | .ok _, .error _ => .isFalse (fun c => Except.noConfusion c)

/-! ### `engines/briefs.py` — brief coercion and the dialogue turn -/

/-- Model of `BRIEF_KEYS` (engines/briefs.py): the 8 fixed brief keys, in order. -/
def BRIEF_KEYS : List String :=
  ["hook", "details", "offer_price", "retail_price", "offer_term",
   "reports", "stocks_to_tease", "quotes_news"]

/-- Model of `_ensure_str` (engines/briefs.py): `str(x).strip() if x is not None else ""`. -/
def ensure_str (x : Py) : String :=
  match x with
  | .none => ""
  | x => pyStrip (pyStr x)

/-- Model of `coerce_brief` (engines/briefs.py): coerce an arbitrary object into a
brief dict with the stable keys.  The result is a string-to-string dict in
`BRIEF_KEYS` order, modelled as an association list. -/
def coerce_brief (obj : Py) : List (String × String) :=
  let d : PyObj := match obj with | .dict m => m | _ => .nil
  BRIEF_KEYS.map (fun k => (k, ensure_str (d.getD k)))

/-- A coerced brief viewed again as a Python value (the dict that
`coerce_brief` returns, fed back into Python code). -/
def briefToPy (b : List (String × String)) : Py :=
  .dict (b.foldr (fun kv acc => .cons kv.1 (.str kv.2) acc) .nil)

/-- The result dict of `brief_builder_turn`. -/
structure BriefTurn where
  error : Option String
  brief : List (String × String)
  next_question : String
  is_ready : Bool
  raw : String
  deriving DecidableEq

/-- Model of `brief_builder_turn` (engines/briefs.py), from the provider call on.
The prompt strings assembled before the call only feed the provider, whose
textual response is the `raw` parameter here, so the embedding starts at
`_provider_call_json`'s result: `obj = parse_json_object(raw)`.  The
`current_brief` argument is an arbitrary Python value, coerced on entry as
in the source. -/
def brief_builder_turn (current_brief : Py) (raw : String) : BriefTurn :=
  let brief := coerce_brief current_brief
  let obj : Option Py := parse_json_object_run raw
  match obj with
  | some (.dict m) =>
    let new_brief := coerce_brief (m.getD "brief")
    let nq := ensure_str (m.getD "next_question")
    -- Python `or`: an empty extracted question falls back to the default
    let next_q := if nq = "" then "What are you promoting, and who is it for?" else nq
    { error := Option.none, brief := new_brief, next_question := next_q,
      is_ready := pyTruthy (m.getD "is_ready"), raw := raw }
  | _ =>
    { error := some "Could not parse JSON from the model response.",
      brief := brief,
      next_question := "Could you rephrase that in one sentence?",
      is_ready := false, raw := raw }

/-! ### `engines/creative.py` — trait banding and the QA loop -/

/-- Model of `DISCLAIMER_LINE` (engines/creative.py). -/
def DISCLAIMER_LINE : String :=
  "*Past performance is not a reliable indicator of future results.*"

/-- Model of `LENGTH_RULES` (engines/creative.py): length bucket → (min, max);
`none` models Python's `None` (no maximum). -/
def LENGTH_RULES : List (String × (Nat × Option Nat)) :=
  [("Short (100-200 words)", (100, some 220)),
   ("Medium (200-500 words)", (200, some 550)),
   ("Long (500-1500 words)", (500, some 1600)),
   ("Extra Long (1500-3000 words)", (1500, some 3200)),
   ("Scrolling Monster (3000+ words)", (3000, Option.none))]

/-- One trait's configuration dict, with its optional fields typed as the
code uses them (`high_threshold`/`low_threshold` numeric,
`high_rule`/`mid_rule`/`low_rule` strings).  An absent field models a
missing key, picked up by `.get`'s default. -/
structure TraitCfg where
  high_threshold : Option Int := Option.none
  low_threshold : Option Int := Option.none
  high_rule : Option String := Option.none
  mid_rule : Option String := Option.none
  low_rule : Option String := Option.none
  deriving DecidableEq

/-- Model of `trait_rules` (engines/creative.py): band each scored trait into a
high/low/mid rule, then drop blank rules.  A trait with no (or an empty)
configuration entry contributes nothing — with all fields absent every
branch yields a blank rule, which the final filter removes, exactly as the
source's `if not cfg: continue` does for an empty dict. -/
def trait_rules (traits : List (String × Int)) (trait_cfg : List (String × TraitCfg)) :
    List String :=
  (traits.flatMap (fun nv =>
    match List.lookup nv.1 trait_cfg with
    | Option.none => []
    | some cfg =>
      if nv.2 ≥ cfg.high_threshold.getD 8 then [cfg.high_rule.getD ""]
      else if nv.2 ≤ cfg.low_threshold.getD 3 then [cfg.low_rule.getD ""]
      else
        match cfg.mid_rule with
        | some mid => if mid ≠ "" then [mid] else []
        | Option.none => [])).filter (fun x => pyStrip x ≠ "")

/-- The result dict of `qa_and_patch_copy`. -/
structure QAResult where
  status : String
  critique : String
  copy : String
  deriving DecidableEq

/-- The result of `qa_and_patch_copy` together with which provider calls were
issued. -/
structure QATrace where
  result : QAResult
  critique_called : Bool
  patch_called : Bool
  deriving DecidableEq

/-- The too-long check of `qa_and_patch_copy` (`if max_len and word_count
> int(max_len * 1.25)`); a `None` maximum is falsy and checks nothing. -/
def qaMaxIssue : Option Nat → Nat → List String
  | some mx, word_count =>
    if word_count > 5 * mx / 4 then
      ["Draft is " ++ toString word_count ++ " words (target max: " ++
       toString mx ++ "). Tighten to fit the length bucket."] else []
  | Option.none, _ => []

/-- The deterministic ("fast, cheap") checks of `qa_and_patch_copy`, in
source order: too-short, missing disclaimer, too-long. -/
def qaIssues (min_len : Nat) (max_len : Option Nat) (word_count : Nat) (text : String) :
    List String :=
  (if min_len ≠ 0 ∧ word_count < min_len / 2 then
    ["Draft is only " ++ toString word_count ++ " words (target min: " ++
     toString min_len ++ "). Expand significantly."] else []) ++
  (if ¬ (pyIn DISCLAIMER_LINE text = true) then
    ["Disclaimer line is missing or not exact. Append the italic disclaimer at the end."]
   else []) ++
  qaMaxIssue max_len word_count

/-- Model of `qa_and_patch_copy` (engines/creative.py).  The two `_call_provider`
invocations are modelled by the oracle parameters `critiqueResp` and
`patchResp` (the provider's responses); the trace records whether each
call was issued.  `int(min_len * 0.5)` and `int(max_len * 1.25)` are exact
float computations truncated toward zero, i.e. `min_len / 2` and
`5 * max_len / 4` in natural division. -/
def qa_and_patch_copy (draft length_choice critiqueResp patchResp : String) : QATrace :=
  let text := pyStrip draft
  if text = "" then ⟨⟨"ERROR", "Empty draft", ""⟩, false, false⟩
  else
    let mm := (List.lookup length_choice LENGTH_RULES).getD (0, Option.none)
    let word_count := wordCount text.data false
    let issues : List String := qaIssues mm.1 mm.2 word_count text
    let critique :=
      if issues.isEmpty then critiqueResp
      else String.intercalate "\n" (issues.map (fun x => "- " ++ x))
    let critique_called := issues.isEmpty
    if containsSub "PASS".data (pyUpper critique).data ∧ issues.isEmpty then
      ⟨⟨"PASS", "PASS", text⟩, critique_called, false⟩
    else
      let patched := pyStrip patchResp
      if patched ≠ "" then ⟨⟨"PATCHED", pyStrip critique, patched⟩, critique_called, true⟩
      else ⟨⟨"ERROR", pyStrip critique, text⟩, critique_called, true⟩

/-! ### `engines/audience.py` — the focus-group guard -/

/-- The observable outcome of `focus_group_debate`: either the early
`{"error": "No creative provided"}` dict or whatever the remainder of the
pipeline produces. -/
inductive FGOut (ρ : Type) where
  | error (msg : String)
  | done (r : ρ)
  deriving DecidableEq

/-- Model of `focus_group_debate` (engines/audience.py), up to its first provider
call.  Everything after the empty-creative guard is abstracted as the
continuation `rest` (it receives the stripped creative text and reports
its result together with the number of provider/network calls it issues);
the guard itself is embedded verbatim. -/
def focus_group_debate {ρ : Type} (creative_text : String)
    (rest : String → ρ × Nat) : FGOut ρ × Nat :=
  let t := pyStrip creative_text
  if t = "" then (.error "No creative provided", 0)
  else
    let rn := rest t
    (.done rn.1, rn.2)

/-! ### `pages/04_Test_headlines.py` — headline-score aggregation -/

/-- Model of `(r.get("output") or \x7b\x7d).get("top_3") or []` for one persona
result `r`: the list of `top_3` items.  (A truthy non-dict `"output"`
would crash the page; persona results always carry dicts there, and the
embedding returns no items in that unreachable case.) -/
def top3Items (r : PyObj) : List Py :=
  let out := r.getD "output"
  let out' := if pyTruthy out then out else .dict .nil
  match out' with
  | .dict m =>
    (match m.getD "top_3" with
     | v =>
       let v' := if pyTruthy v then v else .list .nil
       match v' with
       | .list xs => xs.toList
       | _ => [])
  | _ => []

/-- Model of `scores[k] += d` on the scores dict (keys are unique). -/
def bump (scores : List (Nat × Int)) (k : Nat) (d : Int) : List (Nat × Int) :=
  scores.map (fun kv => if kv.1 = k then (kv.1, kv.2 + d) else kv)

/-- One `top_3` item's effect on the scores dict: the `try` block of the
aggregation loop.  A failing `int()` conversion (or a non-dict item) is
caught by the `except` and skipped. -/
def contribUpdate (n : Nat) (scores : List (Nat × Int)) (item : Py) : List (Nat × Int) :=
  match item with
  | .dict m =>
    (match pyToInt (m.getD "headline_index"), pyToInt (m.getD "rank") with
     | .ok idx, .ok rank =>
       if 1 ≤ idx ∧ idx ≤ (n : Int) then bump scores idx.toNat (max 0 (4 - rank))
       else scores
     | _, _ => scores)
  | _ => scores

/-- Model of `scores = \x7bi + 1: 0 for i in range(len(headlines))\x7d`. -/
def initScores (n : Nat) : List (Nat × Int) :=
  (List.range n).map (fun i => (i + 1, 0))

/-- The aggregation loop of pages/04_Test_headlines.py: fold every
persona's `top_3` items over the zero-initialised scores dict. -/
def aggregate_scores (n : Nat) (results : List PyObj) : List (Nat × Int) :=
  results.foldl (fun sc r => (top3Items r).foldl (contribUpdate n) sc) (initScores n)

/-- Stable insertion into a descending-by-score list: the inserted element
goes after every element with a greater-or-equal score.  Folding this over
the input reproduces Python's stable `sorted(..., key=value, reverse=True)`. -/
def insertDesc (x : Nat × Int) : List (Nat × Int) → List (Nat × Int)
  | [] => [x]
  | y :: ys => if x.2 ≥ y.2 then x :: y :: ys else y :: insertDesc x ys

/-- Python's `sorted(scores.items(), key=value, reverse=True)`: the stable
descending sort of the scores dict's items. -/
def sortDescStable (l : List (Nat × Int)) : List (Nat × Int) :=
  l.foldr insertDesc []

/-- Model of `ranked` (pages/04_Test_headlines.py): scores sorted by value,
descending, ties keeping dict (= headline-index) order. -/
def ranked (n : Nat) (results : List PyObj) : List (Nat × Int) :=
  sortDescStable (aggregate_scores n results)

/-- What the spec says one `top_3` item contributes to headline `i`:
`max(0, 4 - rank)` when the item's `headline_index` is `i` and in range,
`0` otherwise (including unparsable items). -/
def itemContrib (n : Nat) (i : Nat) (item : Py) : Int :=
  match item with
  | .dict m =>
    (match pyToInt (m.getD "headline_index"), pyToInt (m.getD "rank") with
     | .ok idx, .ok rank =>
       if 1 ≤ idx ∧ idx ≤ (n : Int) ∧ idx = (i : Int) then max 0 (4 - rank) else 0
     | _, _ => 0)
  | _ => 0

/-- The spec-side aggregate score of headline `i`: the sum of the
contributions of all personas' `top_3` items. -/
def specScore (n : Nat) (results : List PyObj) (i : Nat) : Int :=
  (results.map (fun r => ((top3Items r).map (itemContrib n i)).sum)).sum

/-! ### Claim-side definitions and concrete test data -/

/-- Modelled from the spec's words, for comparison with the source's
`sanitize_json_text`: "Strip a leading/trailing markdown code-fence token
(```json or ```) if present" — i.e. remove at most one fence token at the
very start and one at the very end of the (whitespace-stripped) text,
leaving the content in between otherwise unchanged. -/
def sanitize_spec (text : String) : String :=
  let l := pyStripL text.data
  let l1 :=
    if "```json".data.isPrefixOf l then l.drop 7
    else if "```".data.isPrefixOf l then l.drop 3
    else l
  let l2 :=
    if "```".data.isSuffixOf l1 then l1.take (l1.length - 3)
    else l1
  ⟨pyStripL l2⟩

/-- A `top_3` entry `\x7b"headline_index": idx, "rank": rank\x7d`. -/
def demoItem (idx rank : Int) : Py :=
  .dict (.cons "headline_index" (.int idx) (.cons "rank" (.int rank) .nil))

/-- One persona's result dict whose `output.top_3` ranks headline 2 first
and headline 1 second. -/
def demoPersona : PyObj :=
  .cons "persona" (.str "p")
    (.cons "output"
      (.dict (.cons "top_3"
        (.list (.cons (demoItem 2 1) (.cons (demoItem 1 2) .nil))) .nil)) .nil)

/-- The two-persona batch of the claim: both personas rank headline 2
first and headline 1 second. -/
def demoResults : List PyObj :=
  [demoPersona, demoPersona]

/-- A two-persona batch producing a tie: one persona ranks headline 1
first, the other ranks headline 2 first. -/
def demoTiePersona (idx : Int) : PyObj :=
  .cons "output"
    (.dict (.cons "top_3" (.list (.cons (demoItem idx 1) .nil)) .nil)) .nil

/-- The tied batch: headline 1 and headline 2 each score 3. -/
def demoTieResults : List PyObj :=
  [demoTiePersona 1, demoTiePersona 2]

/-! ### Basic lemmas about the string primitives -/

theorem dropWhile_congr_pref {p : Char → Bool} {l m : List Char} (hp : m <+: l)
    (h : List.dropWhile p l = l) : List.dropWhile p m = m := by
  cases m with
  | nil => simp
  | cons c t =>
    obtain ⟨rest, hrest⟩ := hp
    have hc : p c = false := by
      by_contra hcc
      have hc' : p c = true := by
        cases hpc : p c
        · exact absurd hpc hcc
        · rfl
      subst hrest
      rw [List.cons_append, List.dropWhile_cons, hc'] at h
      simp only [if_true] at h
      have hlen : (List.dropWhile p (t ++ rest)).length = (t ++ rest).length + 1 := by
        rw [h]; simp
      have hle : (List.dropWhile p (t ++ rest)).length ≤ (t ++ rest).length :=
        (List.dropWhile_sublist p).length_le
      omega
    rw [List.dropWhile_cons, hc]
    simp

theorem stripR_pref (l : List Char) : stripR l <+: l := by
  rw [stripR]
  conv_rhs => rw [← List.reverse_reverse l]
  exact ( List.reverse_prefix).mpr (List.dropWhile_suffix pyWS)

theorem stripR_stripR (l : List Char) : stripR (stripR l) = stripR l := by
  unfold stripR
  rw [List.reverse_reverse, List.dropWhile_idempotent]

theorem pyStripL_idem (l : List Char) : pyStripL (pyStripL l) = pyStripL l := by
  unfold pyStripL
  have hm : List.dropWhile pyWS (List.dropWhile pyWS l) = List.dropWhile pyWS l :=
    List.dropWhile_idempotent pyWS l
  have hpre : stripR (List.dropWhile pyWS l) <+: List.dropWhile pyWS l :=
    stripR_pref _
  rw [dropWhile_congr_pref hpre hm, stripR_stripR]

theorem pyStrip_idem (s : String) : pyStrip (pyStrip s) = pyStrip s :=
  congrArg String.mk (pyStripL_idem s.data)

theorem pyStrip_empty : pyStrip "" = "" := rfl

theorem containsSub_iff {pat l : List Char} : containsSub pat l = true ↔ pat <:+: l := by
  induction l with
  | nil => simp [containsSub, List.isEmpty_iff, List.infix_nil]
  | cons c cs ih =>
    simp only [containsSub, Bool.or_eq_true, List.isPrefixOf_iff_prefix, ih]
    exact ( List.infix_cons_iff).symm

theorem containsSub_false_mono {pat l m : List Char} (hm : m <:+: l)
    (h : containsSub pat l = false) : containsSub pat m = false := by
  by_contra hc
  have : containsSub pat m = true := by
    cases hcc : containsSub pat m
    · exact absurd hcc hc
    · rfl
  have : pat <:+: l := (containsSub_iff.mp this).trans hm
  rw [containsSub_iff.mpr this] at h
  exact Bool.noConfusion h

theorem removeAllF_of_not_contains {pat : List Char} :
    ∀ (f : Nat) (l : List Char), containsSub pat l = false → removeAllF f pat l = l := by
  intro f
  induction f with
  | zero => intro l _; rfl
  | succ f ih =>
    intro l h
    cases l with
    | nil => rfl
    | cons c cs =>
      have hnp : pat.isPrefixOf (c :: cs) = false := by
        cases hp : pat.isPrefixOf (c :: cs)
        · rfl
        · simp [containsSub, hp] at h
      have hcs : containsSub pat cs = false := by
        cases hp : containsSub pat cs
        · rfl
        · simp [containsSub, hp] at h
      rw [removeAllF]
      simp [hnp, ih cs hcs]

theorem removeAll_of_not_contains {pat l : List Char}
    (h : containsSub pat l = false) : removeAll pat l = l :=
  removeAllF_of_not_contains _ l h

/-! ### Lemmas about the extractor and the brief machinery -/

theorem isDict_true_iff {v : Py} : v.isDict = true ↔ ∃ m, v = .dict m := by
  cases v <;> simp [Py.isDict]

theorem ensure_str_str (s : String) : ensure_str (.str s) = pyStrip s := rfl

theorem pyStrip_ensure_str (x : Py) : pyStrip (ensure_str x) = ensure_str x := by
  cases x <;> simp [ensure_str, pyStrip_idem, pyStrip_empty]

/-- Safety: `extract_json_object` never raises and only ever produces `None` or a
dict. -/
theorem extract_ok (t : String) :
    ∃ r, extract_json_object t = Except.ok r ∧
      (r = Option.none ∨ ∃ m, r = some (Py.dict m)) := by
  cases hb : braceBlob t with
  | none => exact ⟨Option.none, by simp [extract_json_object, hb], Or.inl rfl⟩
  | some blob =>
    cases hj : jsonParse blob with
    | error e =>
      exact ⟨Option.none, by simp [extract_json_object, hb, hj], Or.inl rfl⟩
    | ok obj =>
      by_cases hd : obj.isDict = true
      · obtain ⟨m, rfl⟩ := isDict_true_iff.mp hd
        exact ⟨some (.dict m), by simp [extract_json_object, hb, hj, Py.isDict],
          Or.inr ⟨m, rfl⟩⟩
      · have hd' : obj.isDict = false := by
          cases hdd : obj.isDict
          · rfl
          · exact absurd hdd hd
        exact ⟨Option.none, by simp [extract_json_object, hb, hj, hd'], Or.inl rfl⟩

/-- Safety: `parse_json_object` never raises and only ever produces `None` or a
dict. -/
theorem parse_ok (s : String) :
    ∃ r, parse_json_object s = Except.ok r ∧
      (r = Option.none ∨ ∃ m, r = some (Py.dict m)) := by
  by_cases hc : sanitize_json_text s = ""
  · exact ⟨Option.none, by simp [parse_json_object, hc], Or.inl rfl⟩
  · cases hj : jsonParse (sanitize_json_text s) with
    | error e =>
      obtain ⟨r, hr, hcase⟩ := extract_ok (sanitize_json_text s)
      exact ⟨r, by simp [parse_json_object, hc, hj, hr], hcase⟩
    | ok obj =>
      by_cases hd : obj.isDict = true
      · obtain ⟨m, rfl⟩ := isDict_true_iff.mp hd
        exact ⟨some (.dict m), by simp [parse_json_object, hc, hj, Py.isDict],
          Or.inr ⟨m, rfl⟩⟩
      · have hd' : obj.isDict = false := by
          cases hdd : obj.isDict
          · rfl
          · exact absurd hdd hd
        exact ⟨Option.none, by simp [parse_json_object, hc, hj, hd'], Or.inl rfl⟩

/-- The sanitizer leaves backtick-free text unchanged apart from the
whitespace strip. -/
theorem sanitize_no_backtick {s : String}
    (h : containsSub "`".data s.data = false) :
    sanitize_json_text s = pyStrip s := by
  rw [sanitize_json_text]
  by_cases hc : pyStrip s = ""
  · simp [hc]
  · simp only [hc, if_false]
    have hinf : pyStripL s.data <:+: s.data := by
      have hp1 : stripR (List.dropWhile pyWS s.data) <+: List.dropWhile pyWS s.data :=
        stripR_pref _
      have hs1 : List.dropWhile pyWS s.data <:+ s.data := List.dropWhile_suffix pyWS
      exact List.IsInfix.trans ( List.IsPrefix.isInfix hp1) ( List.IsSuffix.isInfix hs1)
    have hstr : containsSub "`".data (pyStrip s).data = false :=
      containsSub_false_mono hinf h
    have h1 : containsSub "```json".data (pyStrip s).data = false := by
      cases hx : containsSub "```json".data (pyStrip s).data
      · rfl
      · have : ("`".data : List Char) <:+: (pyStrip s).data :=
          List.IsInfix.trans ⟨[], "``json".data, rfl⟩ (containsSub_iff.mp hx)
        rw [containsSub_iff.mpr this] at hstr
        exact Bool.noConfusion hstr
    have hr1 : pyRemove (pyStrip s) "```json" = pyStrip s := by
      rw [pyRemove, removeAll_of_not_contains h1]
    rw [hr1]
    have h2 : containsSub "```".data (pyStrip s).data = false := by
      cases hx : containsSub "```".data (pyStrip s).data
      · rfl
      · have : ("`".data : List Char) <:+: (pyStrip s).data :=
          List.IsInfix.trans ⟨[], "``".data, rfl⟩ (containsSub_iff.mp hx)
        rw [containsSub_iff.mpr this] at hstr
        exact Bool.noConfusion hstr
    have hr2 : pyRemove (pyStrip s) "```" = pyStrip s := by
      rw [pyRemove, removeAll_of_not_contains h2]
    rw [hr2, pyStrip_idem]

/-! ### Lemmas about the headline-score aggregation -/

theorem lookup_cons' (i a : Nat) (b : Int) (t : List (Nat × Int)) :
    List.lookup i ((a, b) :: t) = if i = a then some b else List.lookup i t := by
  rw [List.lookup_cons]
  by_cases h : i = a
  · simp [h]
  · have hb : (i == a) = false := by simp [h]
    simp [hb, h]

theorem lookup_bump (sc : List (Nat × Int)) (k : Nat) (d : Int) (i : Nat) :
    List.lookup i (bump sc k d) =
      (List.lookup i sc).map (fun v => if i = k then v + d else v) := by
  induction sc with
  | nil => rfl
  | cons kv t ih =>
    obtain ⟨a, b⟩ := kv
    have hb : bump ((a, b) :: t) k d =
        (if a = k then (a, b + d) else (a, b)) :: bump t k d := by
      simp only [bump, List.map_cons]
    rw [hb]
    by_cases hak : a = k
    · rw [if_pos hak]
      rw [lookup_cons', lookup_cons']
      by_cases hia : i = a
      · rw [if_pos hia, if_pos hia]
        simp [hia, hak]
      · rw [if_neg hia, if_neg hia, ih]
    · rw [if_neg hak]
      rw [lookup_cons', lookup_cons']
      by_cases hia : i = a
      · rw [if_pos hia, if_pos hia]
        have hik : ¬ i = k := by rw [hia]; exact hak
        simp [hik]
      · rw [if_neg hia, if_neg hia, ih]

theorem lookup_append' (a : Nat) (l₁ l₂ : List (Nat × Int)) :
    List.lookup a (l₁ ++ l₂) =
      (match List.lookup a l₁ with
       | some v => some v
       | Option.none => List.lookup a l₂) := by
  induction l₁ with
  | nil => simp
  | cons kv t ih =>
    obtain ⟨k, b⟩ := kv
    rw [List.cons_append, lookup_cons', lookup_cons']
    by_cases h : a = k
    · simp [h]
    · simp only [if_neg h]
      exact ih

theorem lookup_initScores (n i : Nat) :
    List.lookup i (initScores n) =
      (if 1 ≤ i ∧ i ≤ n then some 0 else Option.none) := by
  induction n with
  | zero =>
    rw [initScores]
    simp only [List.range_zero, List.map_nil, List.lookup_nil]
    rw [if_neg]
    intro hcon
    omega
  | succ n ih =>
    have hstep : initScores (n + 1) = initScores n ++ [(n + 1, 0)] := by
      rw [initScores, List.range_succ, List.map_append]
      rfl
    rw [hstep, lookup_append', ih]
    by_cases h1 : 1 ≤ i ∧ i ≤ n
    · rw [if_pos h1, if_pos (show 1 ≤ i ∧ i ≤ n + 1 by omega)]
    · rw [if_neg h1]
      show List.lookup i [(n + 1, 0)] = _
      rw [lookup_cons']
      by_cases h2 : i = n + 1
      · rw [if_pos h2, if_pos (show 1 ≤ i ∧ i ≤ n + 1 by omega)]
      · rw [if_neg h2, if_neg (show ¬ (1 ≤ i ∧ i ≤ n + 1) by omega)]
        rfl

theorem lookup_contribUpdate (n : Nat) (sc : List (Nat × Int)) (item : Py) (i : Nat)
    (hi : 1 ≤ i) :
    List.lookup i (contribUpdate n sc item) =
      (List.lookup i sc).map (fun v => v + itemContrib n i item) := by
  cases item with
  | dict m =>
    show List.lookup i
        (match pyToInt (m.getD "headline_index"), pyToInt (m.getD "rank") with
         | .ok idx, .ok rank =>
           if 1 ≤ idx ∧ idx ≤ (n : Int) then bump sc idx.toNat (max 0 (4 - rank)) else sc
         | _, _ => sc) =
      (List.lookup i sc).map (fun v => v +
        (match pyToInt (m.getD "headline_index"), pyToInt (m.getD "rank") with
         | .ok idx, .ok rank =>
           if 1 ≤ idx ∧ idx ≤ (n : Int) ∧ idx = (i : Int) then max 0 (4 - rank) else 0
         | _, _ => 0))
    cases hh : pyToInt (m.getD "headline_index") with
    | error e =>
      show List.lookup i sc = (List.lookup i sc).map (fun v => v + 0)
      cases List.lookup i sc <;> simp
    | ok idx =>
      cases hr : pyToInt (m.getD "rank") with
      | error e =>
        show List.lookup i sc = (List.lookup i sc).map (fun v => v + 0)
        cases List.lookup i sc <;> simp
      | ok rank =>
        show List.lookup i
            (if 1 ≤ idx ∧ idx ≤ (n : Int) then bump sc idx.toNat (max 0 (4 - rank)) else sc) =
          (List.lookup i sc).map (fun v =>
            v + (if 1 ≤ idx ∧ idx ≤ (n : Int) ∧ idx = (i : Int) then max 0 (4 - rank) else 0))
        by_cases hrange : 1 ≤ idx ∧ idx ≤ (n : Int)
        · rw [if_pos hrange, lookup_bump]
          by_cases hieq : idx = (i : Int)
          · rw [if_pos ⟨hrange.1, hrange.2, hieq⟩]
            have htn : i = idx.toNat := by omega
            cases List.lookup i sc <;> simp [htn]
          · rw [if_neg (fun hcon => hieq hcon.2.2)]
            have htn : ¬ i = idx.toNat := by omega
            cases List.lookup i sc <;> simp [htn]
        · rw [if_neg hrange, if_neg (fun hcon => hrange ⟨hcon.1, hcon.2.1⟩)]
          cases List.lookup i sc <;> simp
  | none =>
    show List.lookup i sc = (List.lookup i sc).map (fun v => v + 0)
    cases List.lookup i sc <;> simp
  | bool b =>
    show List.lookup i sc = (List.lookup i sc).map (fun v => v + 0)
    cases List.lookup i sc <;> simp
  | int v =>
    show List.lookup i sc = (List.lookup i sc).map (fun v => v + 0)
    cases List.lookup i sc <;> simp
  | float f =>
    show List.lookup i sc = (List.lookup i sc).map (fun v => v + 0)
    cases List.lookup i sc <;> simp
  | str s =>
    show List.lookup i sc = (List.lookup i sc).map (fun v => v + 0)
    cases List.lookup i sc <;> simp
  | list xs =>
    show List.lookup i sc = (List.lookup i sc).map (fun v => v + 0)
    cases List.lookup i sc <;> simp

theorem lookup_foldl_items (n : Nat) (items : List Py) (i : Nat) (hi : 1 ≤ i) :
    ∀ sc, List.lookup i (items.foldl (contribUpdate n) sc) =
      (List.lookup i sc).map (fun v => v + (items.map (itemContrib n i)).sum) := by
  induction items with
  | nil =>
    intro sc
    simp only [List.foldl_nil, List.map_nil, List.sum_nil]
    cases List.lookup i sc <;> simp
  | cons x xs ih =>
    intro sc
    rw [List.foldl_cons, ih, lookup_contribUpdate n sc x i hi]
    cases List.lookup i sc with
    | none => simp
    | some v => simp [add_assoc]

theorem lookup_foldl_results (n : Nat) (results : List PyObj) (i : Nat) (hi : 1 ≤ i) :
    ∀ sc, List.lookup i (results.foldl
        (fun sc r => (top3Items r).foldl (contribUpdate n) sc) sc) =
      (List.lookup i sc).map
        (fun v => v + (results.map (fun r => ((top3Items r).map (itemContrib n i)).sum)).sum) := by
  induction results with
  | nil =>
    intro sc
    simp only [List.foldl_nil, List.map_nil, List.sum_nil]
    cases List.lookup i sc <;> simp
  | cons r rs ih =>
    intro sc
    rw [List.foldl_cons, ih, lookup_foldl_items n _ i hi sc]
    cases List.lookup i sc with
    | none => simp
    | some v => simp [add_assoc]

theorem lookup_aggregate (n : Nat) (results : List PyObj) (i : Nat) (hi : 1 ≤ i) :
    List.lookup i (aggregate_scores n results) =
      (List.lookup i (initScores n)).map (fun v => v + specScore n results i) := by
  rw [aggregate_scores, specScore]
  exact lookup_foldl_results n results i hi (initScores n)

theorem length_contribUpdate (n : Nat) (sc : List (Nat × Int)) (item : Py) :
    (contribUpdate n sc item).length = sc.length := by
  cases item with
  | dict m =>
    show (match pyToInt (m.getD "headline_index"), pyToInt (m.getD "rank") with
         | .ok idx, .ok rank =>
           if 1 ≤ idx ∧ idx ≤ (n : Int) then bump sc idx.toNat (max 0 (4 - rank)) else sc
         | _, _ => sc).length = sc.length
    cases pyToInt (m.getD "headline_index") with
    | error e => rfl
    | ok idx =>
      cases pyToInt (m.getD "rank") with
      | error e => rfl
      | ok rank =>
        show (if 1 ≤ idx ∧ idx ≤ (n : Int) then
            bump sc idx.toNat (max 0 (4 - rank)) else sc).length = sc.length
        split
        · simp [bump]
        · rfl
  | none => rfl
  | bool b => rfl
  | int v => rfl
  | float f => rfl
  | str s => rfl
  | list xs => rfl

theorem length_foldl_items (n : Nat) (items : List Py) :
    ∀ sc, (items.foldl (contribUpdate n) sc).length = sc.length := by
  induction items with
  | nil => intro sc; rfl
  | cons x xs ih =>
    intro sc
    rw [List.foldl_cons, ih, length_contribUpdate]

theorem length_foldl_results (n : Nat) (results : List PyObj) :
    ∀ sc, (results.foldl
        (fun sc r => (top3Items r).foldl (contribUpdate n) sc) sc).length = sc.length := by
  induction results with
  | nil => intro sc; rfl
  | cons r rs ih =>
    intro sc
    rw [List.foldl_cons, ih, length_foldl_items]

theorem length_aggregate (n : Nat) (results : List PyObj) :
    (aggregate_scores n results).length = n := by
  rw [aggregate_scores, length_foldl_results]
  simp [initScores]

theorem sortDescStable_head :
    ∀ (l : List (Nat × Int)), l ≠ [] →
      ∃ k v pre post,
        (sortDescStable l).head? = some (k, v) ∧
        l = pre ++ (k, v) :: post ∧
        (∀ y ∈ pre, y.2 < v) ∧
        (∀ y ∈ l, y.2 ≤ v) := by
  intro l
  induction l with
  | nil => intro h; exact absurd rfl h
  | cons x xs ih =>
    intro _
    by_cases hxs : xs = []
    · subst hxs
      obtain ⟨kx, vx⟩ := x
      refine ⟨kx, vx, [], [], rfl, rfl, ?_, ?_⟩
      · intro y hy; cases hy
      · intro y hy
        rcases List.mem_singleton.mp hy with rfl
        exact le_refl _
    · obtain ⟨k, v, pre, post, hhead, hdecomp, hpre, hmax⟩ := ih hxs
      have hsort : sortDescStable (x :: xs) = insertDesc x (sortDescStable xs) := rfl
      obtain ⟨tail, htail⟩ : ∃ t, sortDescStable xs = (k, v) :: t := by
        cases hs : sortDescStable xs with
        | nil => rw [hs] at hhead; exact absurd hhead (by simp)
        | cons y t =>
          rw [hs] at hhead
          simp only [List.head?_cons, Option.some.injEq] at hhead
          exact ⟨t, by rw [hhead]⟩
      obtain ⟨kx, vx⟩ := x
      by_cases hx : vx ≥ v
      · refine ⟨kx, vx, [], xs, ?_, rfl, ?_, ?_⟩
        · rw [hsort, htail, insertDesc, if_pos hx]
          rfl
        · intro y hy; cases hy
        · intro y hy
          rcases List.mem_cons.mp hy with rfl | hmem
          · exact le_refl _
          · exact le_trans (hmax y hmem) hx
      · have hlt : vx < v := lt_of_not_ge hx
        refine ⟨k, v, (kx, vx) :: pre, post, ?_, ?_, ?_, ?_⟩
        · rw [hsort, htail, insertDesc, if_neg hx]
          rfl
        · rw [List.cons_append, hdecomp]
        · intro y hy
          rcases List.mem_cons.mp hy with rfl | hmem
          · exact hlt
          · exact hpre y hmem
        · intro y hy
          rcases List.mem_cons.mp hy with rfl | hmem
          · exact le_of_lt hlt
          · exact hmax y hmem

/-! ### The claims -/

/-- C2: the JSON extractor never raises — for every string input,
`parse_json_object` (and its helper `extract_json_object`) returns
(`Except.ok`) either a mapping (`Py.dict`) or `None`, and no exception
(`Except.error`) escapes to the caller. -/
theorem C2_extractor_never_raises (s : String) :
    (∃ r, parse_json_object s = Except.ok r ∧
      (r = Option.none ∨ ∃ m, r = some (Py.dict m))) ∧
    (∃ r, extract_json_object s = Except.ok r ∧
      (r = Option.none ∨ ∃ m, r = some (Py.dict m))) :=
  ⟨parse_ok s, extract_ok s⟩

/-- C6: the extractor rejects non-object top-level values: when the strict
parse of the sanitized text succeeds with a non-dict value the result is
`None`; the brace-substring fallback also only ever returns `None` or a
dict; and on the literal `"[1,2,3]"` the extractor returns `None`. -/
theorem C6_rejects_non_objects :
    (∀ (s : String) (v : Py), jsonParse (sanitize_json_text s) = Except.ok v →
      v.isDict = false → parse_json_object s = Except.ok Option.none) ∧
    (∀ t : String, extract_json_object t = Except.ok Option.none ∨
      ∃ m, extract_json_object t = Except.ok (some (Py.dict m))) ∧
    parse_json_object "[1,2,3]" = Except.ok Option.none := by
  refine ⟨?_, ?_, by decide⟩
  · intro s v hj hd
    have hc : sanitize_json_text s ≠ "" := by
      intro hcc
      rw [hcc] at hj
      exact Except.noConfusion ((rfl : jsonParse "" = Except.error ()) ▸ hj)
    simp [parse_json_object, hc, hj, hd]
  · intro t
    obtain ⟨r, hr, hcase⟩ := extract_ok t
    rcases hcase with rfl | ⟨m, rfl⟩
    · exact Or.inl hr
    · exact Or.inr ⟨m, hr⟩

/-- C6 witness: the general rejection theorem applied to the concrete
input `"[1,2,3]"`, whose strict parse yields a (non-dict) JSON array. -/
theorem C6_rejects_non_objects_witness :
    parse_json_object "[1,2,3]" = Except.ok Option.none :=
  C6_rejects_non_objects.1 "[1,2,3]"
    (Py.list (.cons (.int 1) (.cons (.int 2) (.cons (.int 3) .nil))))
    (by decide) (by decide)

/-- C7 counterexample: the first step of the extractor does NOT merely
strip a leading/trailing fence token leaving the content otherwise
unchanged — `str.replace` removes the fence tokens everywhere.  On the
input `\x7b"a": "x```y"\x7d`, which has no leading or trailing fence, the
spec-modelled sanitizer leaves the text unchanged, but the source's
sanitizer deletes the backticks inside the JSON string content, and the
extractor parses the mangled object. -/
theorem C7_counterexample :
    sanitize_json_text "\x7b\"a\": \"x```y\"\x7d" = "\x7b\"a\": \"xy\"\x7d" ∧
    sanitize_spec "\x7b\"a\": \"x```y\"\x7d" = "\x7b\"a\": \"x```y\"\x7d" ∧
    sanitize_json_text "\x7b\"a\": \"x```y\"\x7d" ≠
      sanitize_spec "\x7b\"a\": \"x```y\"\x7d" ∧
    parse_json_object "\x7b\"a\": \"x```y\"\x7d" =
      Except.ok (some (.dict (.cons "a" (.str "xy") .nil))) := by
  refine ⟨by decide, by decide, by decide, by decide⟩

/-- C7 (amended): the extractor's first step removes every occurrence of
the fence tokens ```json and ``` anywhere in the text and strips
surrounding whitespace — so text containing no backtick at all is left
unchanged apart from the whitespace strip, and the fence-wrapped example
`"Here you go:\n```json\n\x7b\"a\": 1\x7d\n```"` parses to the object
`\x7b"a": 1\x7d`. -/
theorem C7_fence_stripping_amended :
    (∀ s : String, containsSub "`".data s.data = false →
      sanitize_json_text s = pyStrip s) ∧
    parse_json_object "Here you go:\n```json\n\x7b\"a\": 1\x7d\n```" =
      Except.ok (some (.dict (.cons "a" (.int 1) .nil))) :=
  ⟨fun _ h => sanitize_no_backtick h, by decide⟩

/-- C7 witness: the amended theorem applied to a concrete backtick-free
input. -/
theorem C7_fence_stripping_witness :
    sanitize_json_text " plain text, no fences " = pyStrip " plain text, no fences " :=
  C7_fence_stripping_amended.1 " plain text, no fences " (by decide)

/-- C8: brief-dialogue parse-failure fallback — whenever no JSON object
can be extracted from the provider's response, `brief_builder_turn`
returns the fixed fallback question and `is_ready = false` (and, the
parse having returned `Except.ok`, no exception reaches the caller). -/
theorem C8_brief_dialogue_fallback (current_brief : Py) (raw : String)
    (h : parse_json_object raw = Except.ok Option.none) :
    (brief_builder_turn current_brief raw).next_question =
      "Could you rephrase that in one sentence?" ∧
    (brief_builder_turn current_brief raw).is_ready = false := by
  have hrun : parse_json_object_run raw = Option.none := by
    rw [parse_json_object_run, h]
  rw [brief_builder_turn, hrun]
  exact ⟨rfl, rfl⟩

/-- C8 witness: the fallback theorem at a concrete unparsable response. -/
theorem C8_brief_dialogue_fallback_witness :
    (brief_builder_turn (.dict (.cons "hook" (.str "AI boom") .nil))
        "Sorry, I cannot help with that.").next_question =
      "Could you rephrase that in one sentence?" ∧
    (brief_builder_turn (.dict (.cons "hook" (.str "AI boom") .nil))
        "Sorry, I cannot help with that.").is_ready = false :=
  C8_brief_dialogue_fallback (.dict (.cons "hook" (.str "AI boom") .nil))
    "Sorry, I cannot help with that." (by decide)

/-- C9: empty creative short-circuits the focus-group debate — for every
creative text that strips to empty, `focus_group_debate` returns exactly
the `\x7b"error": "No creative provided"\x7d` dict and issues zero
provider/network calls, whatever the rest of the pipeline would do. -/
theorem C9_empty_creative_short_circuits {ρ : Type} (rest : String → ρ × Nat)
    (creative_text : String) (h : pyStrip creative_text = "") :
    focus_group_debate creative_text rest = (.error "No creative provided", 0) := by
  rw [focus_group_debate, h]
  rfl

/-- C9 witness: the short-circuit theorem at a concrete whitespace-only
creative, with a continuation that would issue five calls. -/
theorem C9_empty_creative_witness :
    focus_group_debate "  \n  " (fun _ => ((), 5)) =
      (.error "No creative provided", 0) :=
  C9_empty_creative_short_circuits (fun _ => ((), 5)) "  \n  " (by decide)

/-- C10: for every draft that strips to empty, `qa_and_patch_copy` returns
exactly `\x7b"status": "ERROR", "critique": "Empty draft", "copy": ""\x7d`
without issuing any provider call (neither critique nor patch). -/
theorem C10_qa_empty_draft (draft length_choice critiqueResp patchResp : String)
    (h : pyStrip draft = "") :
    qa_and_patch_copy draft length_choice critiqueResp patchResp =
      ⟨⟨"ERROR", "Empty draft", ""⟩, false, false⟩ := by
  rw [qa_and_patch_copy, h]
  rfl

/-- C10 witness: the empty-draft theorem at a concrete whitespace-only
draft. -/
theorem C10_qa_empty_draft_witness :
    qa_and_patch_copy " \t\n" "Medium (200-500 words)" "PASS" "patched text" =
      ⟨⟨"ERROR", "Empty draft", ""⟩, false, false⟩ :=
  C10_qa_empty_draft " \t\n" "Medium (200-500 words)" "PASS" "patched text" (by decide)

/-- C1: `coerce_brief` is total and idempotent — for every Python value
(any dict, an empty dict, `None`, or a non-mapping) the result's key list
is exactly the 8 fixed brief keys in order (its values are strings by
construction), and coercing the coerced brief again returns it
unchanged. -/
theorem C1_coerce_brief_total_idempotent (x : Py) :
    (coerce_brief x).map Prod.fst = BRIEF_KEYS ∧
    coerce_brief (briefToPy (coerce_brief x)) = coerce_brief x := by
  constructor
  · cases x <;> simp [coerce_brief, Function.comp_def]
  · simp [coerce_brief, briefToPy, BRIEF_KEYS, PyObj.getD, PyObj.get,
      ensure_str_str, pyStrip_ensure_str]

/-- Evaluation of `trait_rules` on a single scored trait whose configuration is present:
the banding conditional followed by the blank-rule filter. -/
theorem trait_rules_single (name : String) (score : Int)
    (tc : List (String × TraitCfg)) (cfg : TraitCfg)
    (hlk : List.lookup name tc = some cfg) :
    trait_rules [(name, score)] tc =
      (if score ≥ cfg.high_threshold.getD 8 then [cfg.high_rule.getD ""]
       else if score ≤ cfg.low_threshold.getD 3 then [cfg.low_rule.getD ""]
       else
         match cfg.mid_rule with
         | some mid => if mid ≠ "" then [mid] else []
         | Option.none => []).filter (fun x => pyStrip x ≠ "") := by
  simp only [trait_rules, List.flatMap_cons, List.flatMap_nil, List.append_nil, hlk]

/-- C4: trait banding with inclusive thresholds — for a trait with a
configuration entry (with bands in sane order, low < high): a score at or
above `high_threshold` (default 8) emits the high rule, a score at or
below `low_threshold` (default 3) emits the low rule, and a score
strictly between them emits the mid rule when one is configured and
nothing otherwise. -/
theorem C4_trait_banding (name : String) (score : Int)
    (tc : List (String × TraitCfg)) (cfg : TraitCfg)
    (hlk : List.lookup name tc = some cfg)
    (hsane : cfg.low_threshold.getD 3 < cfg.high_threshold.getD 8) :
    (∀ r, cfg.high_rule = some r → pyStrip r ≠ "" →
      score ≥ cfg.high_threshold.getD 8 → trait_rules [(name, score)] tc = [r]) ∧
    (∀ r, cfg.low_rule = some r → pyStrip r ≠ "" →
      score ≤ cfg.low_threshold.getD 3 → trait_rules [(name, score)] tc = [r]) ∧
    (cfg.low_threshold.getD 3 < score → score < cfg.high_threshold.getD 8 →
      ((∀ m, cfg.mid_rule = some m → pyStrip m ≠ "" →
          trait_rules [(name, score)] tc = [m]) ∧
       (cfg.mid_rule = Option.none → trait_rules [(name, score)] tc = []))) := by
  refine ⟨?_, ?_, ?_⟩
  · intro r hr hstrip hge
    rw [trait_rules_single name score tc cfg hlk, if_pos hge, hr]
    simp [List.filter, hstrip]
  · intro r hr hstrip hle
    rw [trait_rules_single name score tc cfg hlk,
      if_neg (show ¬ score ≥ cfg.high_threshold.getD 8 by omega), if_pos hle, hr]
    simp [List.filter, hstrip]
  · intro hlo hhi
    constructor
    · intro m hm hstrip
      have hmne : m ≠ "" := by
        intro hcon
        rw [hcon] at hstrip
        exact hstrip pyStrip_empty
      rw [trait_rules_single name score tc cfg hlk,
        if_neg (show ¬ score ≥ cfg.high_threshold.getD 8 by omega),
        if_neg (show ¬ score ≤ cfg.low_threshold.getD 3 by omega), hm]
      simp [List.filter, hmne, hstrip]
    · intro hm
      rw [trait_rules_single name score tc cfg hlk,
        if_neg (show ¬ score ≥ cfg.high_threshold.getD 8 by omega),
        if_neg (show ¬ score ≤ cfg.low_threshold.getD 3 by omega), hm]
      rfl

/-- C4 witness: with default thresholds and all three rules configured,
score 8 emits the high rule, 3 the low rule, and 4 and 7 the mid rule. -/
theorem C4_trait_banding_witness :
    trait_rules [("Urgency", 8)]
      [("Urgency", { high_rule := some "go high", mid_rule := some "go mid",
                     low_rule := some "go low" })] = ["go high"] ∧
    trait_rules [("Urgency", 3)]
      [("Urgency", { high_rule := some "go high", mid_rule := some "go mid",
                     low_rule := some "go low" })] = ["go low"] ∧
    trait_rules [("Urgency", 4)]
      [("Urgency", { high_rule := some "go high", mid_rule := some "go mid",
                     low_rule := some "go low" })] = ["go mid"] ∧
    trait_rules [("Urgency", 7)]
      [("Urgency", { high_rule := some "go high", mid_rule := some "go mid",
                     low_rule := some "go low" })] = ["go mid"] :=
  ⟨(C4_trait_banding "Urgency" 8
      [("Urgency", { high_rule := some "go high", mid_rule := some "go mid",
                     low_rule := some "go low" })]
      { high_rule := some "go high", mid_rule := some "go mid", low_rule := some "go low" }
      (by decide) (by decide)).1 "go high" rfl (by decide) (by decide),
   (C4_trait_banding "Urgency" 3
      [("Urgency", { high_rule := some "go high", mid_rule := some "go mid",
                     low_rule := some "go low" })]
      { high_rule := some "go high", mid_rule := some "go mid", low_rule := some "go low" }
      (by decide) (by decide)).2.1 "go low" rfl (by decide) (by decide),
   ((C4_trait_banding "Urgency" 4
      [("Urgency", { high_rule := some "go high", mid_rule := some "go mid",
                     low_rule := some "go low" })]
      { high_rule := some "go high", mid_rule := some "go mid", low_rule := some "go low" }
      (by decide) (by decide)).2.2 (by decide) (by decide)).1 "go mid" rfl (by decide),
   ((C4_trait_banding "Urgency" 7
      [("Urgency", { high_rule := some "go high", mid_rule := some "go mid",
                     low_rule := some "go low" })]
      { high_rule := some "go high", mid_rule := some "go mid", low_rule := some "go low" }
      (by decide) (by decide)).2.2 (by decide) (by decide)).1 "go mid" rfl (by decide)⟩

theorem lookup_mem {α β : Type} [BEq α] :
    ∀ {l : List (α × β)} {a : α} {b : β},
      List.lookup a l = some b → b ∈ l.map Prod.snd := by
  intro l
  induction l with
  | nil => intro a b h; exact absurd h (by simp)
  | cons kv t ih =>
    intro a b h
    obtain ⟨k, v⟩ := kv
    rw [List.lookup_cons] at h
    cases hbeq : a == k
    · rw [hbeq] at h
      exact List.mem_cons_of_mem _ (ih h)
    · rw [hbeq] at h
      simp only [Option.some.injEq] at h
      subst h
      exact List.mem_cons_self _ _

/-- Every bucket minimum in `LENGTH_RULES` is even and non-zero, so
`word_count < int(min_len * 0.5)` coincides with
`2 * word_count < min_len`. -/
theorem length_rules_facts (choice : String) (mn : Nat) (mx : Option Nat)
    (h : List.lookup choice LENGTH_RULES = some (mn, mx)) :
    mn % 2 = 0 ∧ mn ≠ 0 := by
  have hmem := lookup_mem h
  simp only [LENGTH_RULES, List.map_cons, List.map_nil, List.mem_cons,
    List.not_mem_nil, or_false, Prod.mk.injEq] at hmem
  rcases hmem with ⟨rfl, rfl⟩ | ⟨rfl, rfl⟩ | ⟨rfl, rfl⟩ | ⟨rfl, rfl⟩ | ⟨rfl, rfl⟩ <;> decide

/-- C5: the QA deterministic gate short-circuits the model critique — for
every non-empty draft in a known length bucket whose word count is below
50% of the bucket minimum, or above 125% of its maximum, or which lacks
the verbatim disclaimer line, `qa_and_patch_copy` flags the issue
(result not PASS) and proceeds straight to the patch call without issuing
a critique call. -/
theorem C5_qa_deterministic_gate (draft length_choice critiqueResp patchResp : String)
    (mn : Nat) (mx : Option Nat)
    (hne : pyStrip draft ≠ "")
    (hlk : List.lookup length_choice LENGTH_RULES = some (mn, mx))
    (hcond : 2 * wordCount (pyStrip draft).data false < mn ∨
      (∃ M, mx = some M ∧ 5 * M < 4 * wordCount (pyStrip draft).data false) ∨
      pyIn DISCLAIMER_LINE (pyStrip draft) = false) :
    (qa_and_patch_copy draft length_choice critiqueResp patchResp).critique_called = false ∧
    (qa_and_patch_copy draft length_choice critiqueResp patchResp).patch_called = true ∧
    (qa_and_patch_copy draft length_choice critiqueResp patchResp).result.status ≠ "PASS" := by
  have hfacts := length_rules_facts length_choice mn mx hlk
  have hiss : qaIssues mn mx (wordCount (pyStrip draft).data false) (pyStrip draft) ≠ [] := by
    rw [qaIssues]
    rcases hcond with h | ⟨M, rfl, hM⟩ | h
    · rw [if_pos (show mn ≠ 0 ∧ wordCount (pyStrip draft).data false < mn / 2 by
        refine ⟨hfacts.2, ?_⟩
        have h2 := hfacts.1
        omega)]
      simp
    · rw [qaMaxIssue, if_pos (show wordCount (pyStrip draft).data false > 5 * M / 4 by
        rw [gt_iff_lt, Nat.div_lt_iff_lt_mul (by norm_num)]
        omega)]
      intro hcon
      rw [List.append_eq_nil, List.append_eq_nil] at hcon
      exact List.noConfusion hcon.2
    · rw [if_pos (show ¬ (pyIn DISCLAIMER_LINE (pyStrip draft) = true) by simp [h])]
      intro hcon
      rw [List.append_eq_nil, List.append_eq_nil] at hcon
      exact List.noConfusion hcon.1.2
  have hie : (qaIssues mn mx (wordCount (pyStrip draft).data false) (pyStrip draft)).isEmpty
      = false := by
    cases hh : (qaIssues mn mx (wordCount (pyStrip draft).data false) (pyStrip draft)).isEmpty
    · rfl
    · exact absurd (List.isEmpty_iff.mp hh) hiss
  rw [qa_and_patch_copy]
  simp only [if_neg hne, hlk, Option.getD_some, hie]
  refine ⟨?_, ?_, ?_⟩ <;> (by_cases hp : pyStrip patchResp = "" <;> simp [hp])

/-- C5 witness: with the Medium bucket (200, 550) and a 50-word draft the
gate fires (2·50 < 200), no critique call is made, and the run goes
straight to the patch call. -/
theorem C5_qa_deterministic_gate_witness :
    (qa_and_patch_copy
      "a a a a a a a a a a a a a a a a a a a a a a a a a a a a a a a a a a a a a a a a a a a a a a a a a a"
      "Medium (200-500 words)" "looks great PASS" "revised copy").critique_called = false ∧
    (qa_and_patch_copy
      "a a a a a a a a a a a a a a a a a a a a a a a a a a a a a a a a a a a a a a a a a a a a a a a a a a"
      "Medium (200-500 words)" "looks great PASS" "revised copy").patch_called = true ∧
    (qa_and_patch_copy
      "a a a a a a a a a a a a a a a a a a a a a a a a a a a a a a a a a a a a a a a a a a a a a a a a a a"
      "Medium (200-500 words)" "looks great PASS" "revised copy").result.status ≠ "PASS" :=
  C5_qa_deterministic_gate
    "a a a a a a a a a a a a a a a a a a a a a a a a a a a a a a a a a a a a a a a a a a a a a a a a a a"
    "Medium (200-500 words)" "looks great PASS" "revised copy" 200 (some 550)
    (by decide) (by decide) (Or.inl (by decide))

/-- C3: multi-persona headline-score aggregation — (i) for every batch and
every in-range headline index, the aggregated scores dict maps the index
to the sum over all personas' `top_3` items of `max(0, 4 - rank)` for the
items naming it; (ii) the head of the ranked list is a maximal-score
entry and the first such entry in dict order (ties break to the first
occurrence); (iii) for 2 personas both ranking headline 2 first and
headline 1 second the scores are `\x7b1: 4, 2: 6\x7d` and headline 2
wins, and a tied batch keeps input order. -/
theorem C3_headline_aggregation :
    (∀ (n : Nat) (results : List PyObj) (i : Nat), 1 ≤ i → i ≤ n →
      List.lookup i (aggregate_scores n results) = some (specScore n results i)) ∧
    (∀ (n : Nat) (results : List PyObj), 0 < n →
      ∃ k v pre post,
        (ranked n results).head? = some (k, v) ∧
        aggregate_scores n results = pre ++ (k, v) :: post ∧
        (∀ y ∈ pre, y.2 < v) ∧
        (∀ y ∈ aggregate_scores n results, y.2 ≤ v)) ∧
    aggregate_scores 2 demoResults = [(1, 4), (2, 6)] ∧
    ranked 2 demoResults = [(2, 6), (1, 4)] ∧
    ranked 2 demoTieResults = [(1, 3), (2, 3)] := by
  refine ⟨?_, ?_, by decide, by decide, by decide⟩
  · intro n results i h1 h2
    rw [lookup_aggregate n results i h1, lookup_initScores, if_pos ⟨h1, h2⟩]
    simp
  · intro n results hn
    have hne : aggregate_scores n results ≠ [] := by
      intro hcon
      have hl := length_aggregate n results
      rw [hcon] at hl
      simp at hl
      omega
    rw [ranked]
    exact sortDescStable_head _ hne

/-- C3 witness: the aggregation theorem applied to the claim's concrete
two-persona batch — the score of headline 1 is the spec-side sum, and the
ranked list's head is the first maximal entry. -/
theorem C3_headline_aggregation_witness :
    List.lookup 1 (aggregate_scores 2 demoResults) = some (specScore 2 demoResults 1) ∧
    (∃ k v pre post,
      (ranked 2 demoResults).head? = some (k, v) ∧
      aggregate_scores 2 demoResults = pre ++ (k, v) :: post ∧
      (∀ y ∈ pre, y.2 < v) ∧
      (∀ y ∈ aggregate_scores 2 demoResults, y.2 ≤ v)) :=
  ⟨C3_headline_aggregation.1 2 demoResults 1 (by decide) (by decide),
   C3_headline_aggregation.2.1 2 demoResults (by decide)⟩

end Omni


